import Mathlib

/-!
Shallow embedding of the revenue/views KPI aggregation scripts
(`main.py`, `views_kpi_poster.py`, `adsense_kpi_poster.py`): calendar-date
arithmetic (mirroring Python `datetime.date`), latest-finalized-day
detection, metric summation, month projection, percent-change annotation,
cross-channel reconciliation, report rendering, and the lenient token-store
loader.  Network calls (`yt_query`, `get_access_token`) are modelled as
explicit oracles: a query either returns its `rows` list or fails with an
HTTP status, the two outcomes the scripts distinguish.  Python floats are
modelled as exact rationals; the `:.0f` / `round()` rendering uses the same
round-half-to-even rule Python uses.
-/

namespace YTKPI

/-! ## Calendar dates (model of Python `datetime.date`) -/

/-- Calendar date, mirroring Python `datetime.date` (proleptic Gregorian).
Components are unbounded here; `ValidDate` states the constructor's checks. -/
structure Date where
  y : ℤ
  m : ℕ
  d : ℕ
deriving DecidableEq

/-- Gregorian leap-year rule (as used by `datetime.date` arithmetic). -/
def isLeap (y : ℤ) : Bool :=
  (y % 4 == 0 && !(y % 100 == 0)) || (y % 400 == 0)

/-- True Gregorian month length. -/
def daysInMonth (y : ℤ) (m : ℕ) : ℕ :=
  if m = 2 then (if isLeap y then 29 else 28)
  else if m = 4 ∨ m = 6 ∨ m = 9 ∨ m = 11 then 30
  else 31

/-- Validity of a `Date` per the `datetime.date` constructor (the year
bounds 1..9999 of CPython are checked separately where relevant). -/
def ValidDate (dt : Date) : Prop :=
  1 ≤ dt.m ∧ dt.m ≤ 12 ∧ 1 ≤ dt.d ∧ dt.d ≤ daysInMonth dt.y dt.m

instance (dt : Date) : Decidable (ValidDate dt) := by
  unfold ValidDate; infer_instance

/-- Days in all years before year `y` (CPython `_days_before_year`). -/
def daysBeforeYear (y : ℤ) : ℤ :=
  365 * (y - 1) + (y - 1) / 4 - (y - 1) / 100 + (y - 1) / 400

/-- Days in year `y` preceding month `m` (CPython `_days_before_month`:
cumulative table plus a leap-day adjustment after February). -/
def daysBeforeMonth (y : ℤ) (m : ℕ) : ℕ :=
  (match m with
   | 1 => 0 | 2 => 31 | 3 => 59 | 4 => 90 | 5 => 120 | 6 => 151
   | 7 => 181 | 8 => 212 | 9 => 243 | 10 => 273 | 11 => 304 | 12 => 334
   | _ => 0)
  + (if 2 < m ∧ isLeap y then 1 else 0)

/-- Proleptic-Gregorian ordinal of a date (CPython `date.toordinal`):
0001-01-01 has ordinal 1. -/
def toOrdinal (dt : Date) : ℤ :=
  daysBeforeYear dt.y + (daysBeforeMonth dt.y dt.m : ℤ) + (dt.d : ℤ)

/-- Difference in days between two dates, i.e. Python `(a - b).days`. -/
def diffDays (a b : Date) : ℤ := toOrdinal a - toOrdinal b

/-- Successor day (Python `d + timedelta(days=1)` on valid dates). -/
def nextDay (dt : Date) : Date :=
  if dt.d < daysInMonth dt.y dt.m then ⟨dt.y, dt.m, dt.d + 1⟩
  else if dt.m < 12 then ⟨dt.y, dt.m + 1, 1⟩
  else ⟨dt.y + 1, 1, 1⟩

/-- Predecessor day (Python `d - timedelta(days=1)` on valid dates). -/
def prevDay (dt : Date) : Date :=
  if 1 < dt.d then ⟨dt.y, dt.m, dt.d - 1⟩
  else if 1 < dt.m then ⟨dt.y, dt.m - 1, daysInMonth dt.y (dt.m - 1)⟩
  else ⟨dt.y - 1, 12, 31⟩

/-- Python `d + timedelta(days=n)` for `n ≥ 0`, as iterated day successor. -/
def addDays : ℕ → Date → Date
  | 0, dt => dt
  | n + 1, dt => addDays n (nextDay dt)

/-- Python `d - timedelta(days=n)` for `n ≥ 0`, as iterated day predecessor. -/
def subDays : ℕ → Date → Date
  | 0, dt => dt
  | n + 1, dt => subDays n (prevDay dt)

/-- Python `d.replace(day=k)`. -/
def withDay (dt : Date) (k : ℕ) : Date := ⟨dt.y, dt.m, k⟩

/-- Month length as the source computes it inside `month_projection_for`
(all three scripts): take day 28, add 4 days (always lands in the next
month), truncate to that month's first day, and difference in days with the
first of the anchor month. -/
def monthLenCode (y : ℤ) (m : ℕ) : ℤ :=
  diffDays (withDay (addDays 4 ⟨y, m, 28⟩) 1) ⟨y, m, 1⟩

/-- Python `<` on dates (lexicographic on year, month, day; equivalent to
ordinal comparison on valid dates). -/
def dateLt (a b : Date) : Bool :=
  decide (a.y < b.y) ||
    (a.y == b.y && (decide (a.m < b.m) || (a.m == b.m && decide (a.d < b.d))))

/-- One comparison step of Python `max` over dates: replace the current
maximum when a strictly larger element appears (ties keep the first). -/
def dateMax (a b : Date) : Date := if dateLt a b then b else a

/-- Python `max` over a list of dates (`none` on an empty list, where the
scripts guard with a truthiness check before calling `max`). -/
def listMaxDate : List Date → Option Date
  | [] => none
  | h :: t => some (t.foldl dateMax h)

/-- Zero-padding to two digits, as in `date.isoformat` / `strftime`. -/
def pad2 (n : ℕ) : String := if n < 10 then "0" ++ toString n else toString n

/-- Python `date.isoformat()` for dates with a four-digit year. -/
def isoformat (dt : Date) : String :=
  toString dt.y ++ "-" ++ pad2 dt.m ++ "-" ++ pad2 dt.d

/-- Month abbreviation used by `strftime("%d-%b-%Y")`. -/
def monthAbbr : ℕ → String
  | 1 => "Jan" | 2 => "Feb" | 3 => "Mar" | 4 => "Apr" | 5 => "May"
  | 6 => "Jun" | 7 => "Jul" | 8 => "Aug" | 9 => "Sep" | 10 => "Oct"
  | 11 => "Nov" | 12 => "Dec" | _ => ""

/-- `fmt_day` of `views_kpi_poster.py`: `d.strftime("%d-%b-%Y")`. -/
def fmt_day (dt : Date) : String :=
  pad2 dt.d ++ "-" ++ monthAbbr dt.m ++ "-" ++ toString dt.y

/-- Python `s.split("-")` on a character list. -/
def splitDashAux : List Char → List Char → List (List Char)
  | [], acc => [acc.reverse]
  | '-' :: t, acc => acc.reverse :: splitDashAux t []
  | c :: t, acc => splitDashAux t (c :: acc)

/-- Decimal digits to a natural number. -/
def digitsToNat (ds : List Char) : ℕ :=
  ds.foldl (fun a c => a * 10 + (c.toNat - 48)) 0

/-- Python `int(s)` for an unsigned decimal literal (`none` models the
`ValueError` raise on anything else). -/
def parseNatDigits (cs : List Char) : Option ℕ :=
  if cs ≠ [] ∧ cs.all Char.isDigit then some (digitsToNat cs) else none

/-- Parse of `"YYYY-MM-DD"` as done in `detect_latest_day`
(`map(int, s.split("-"))` then the `date` constructor); a malformed string,
which would raise in Python, is modelled as `none`. -/
def parseISO (s : String) : Option Date :=
  match splitDashAux s.data [] with
  | [ys, ms, ds] =>
    match parseNatDigits ys, parseNatDigits ms, parseNatDigits ds with
    | some yy, some mm, some dd =>
      if 1 ≤ yy ∧ yy ≤ 9999 ∧ 1 ≤ mm ∧ mm ≤ 12 ∧ 1 ≤ dd ∧ dd ≤ daysInMonth (yy : ℤ) mm
      then some ⟨(yy : ℤ), mm, dd⟩ else none
    | _, _, _ => none
  | _ => none

/-! ## Number rendering (Python `round` / format-spec model) -/

/-- Round half to even, the rule Python's `round()` and `:.0f` formatting
apply (modelled on exact rationals). -/
def rhe (q : ℚ) : ℤ :=
  if q - (⌊q⌋ : ℚ) < 1/2 then ⌊q⌋
  else if 1/2 < q - (⌊q⌋ : ℚ) then ⌊q⌋ + 1
  else if ⌊q⌋ % 2 = 0 then ⌊q⌋ else ⌊q⌋ + 1

/-- Group a reversed digit string in threes, inserting commas
(helper for the `,` format spec). -/
def grpRev : List Char → List Char
  | a :: b :: c :: d :: rest => a :: b :: c :: ',' :: grpRev (d :: rest)
  | l => l

/-- Thousands-separated decimal rendering of a natural number. -/
def natComma (n : ℕ) : String := String.mk ((grpRev (toString n).data.reverse).reverse)

/-- Python `f"{n:,.0f}"` for an integer `n`. -/
def intComma (n : ℤ) : String :=
  if n < 0 then "-" ++ natComma (-n).toNat else natComma n.toNat

/-- Python `f"{x:,.0f}"` for a float `x`: round half to even, keep the
sign of the float (so values in `(-1/2, 0)` render as `-0`). -/
def floatComma0 (q : ℚ) : String :=
  if q < 0 then "-" ++ natComma (rhe (-q)).toNat else natComma (rhe q).toNat

/-- Python `f"{x:.0f}"` (no thousands separator), same rounding and sign. -/
def float0 (q : ℚ) : String :=
  if q < 0 then "-" ++ toString (rhe (-q)).toNat else toString (rhe q).toNat

/-- Em-dash placeholder `EM_DASH` used for absent values. -/
def emDash : String := "—"

/-- `fmt_number` (both scripts): `f"{int(round(x)):,.0f}"`. -/
def fmt_number (x : ℚ) : String := intComma (rhe x)

/-- `fmt_money` (whatever the currency, the claims only exercise the USD
branch `f"${x:,.0f}"` that is the script default). -/
def fmt_money (x : ℚ) : String := "$" ++ floatComma0 x

/-- `fmt_or_dash_number`: render a number, or the placeholder dash when the
value is absent (`isinstance` check on a possibly-`None` float). -/
def fmt_or_dash_number : Option ℚ → String
  | some x => fmt_number x
  | none => emDash

/-- `fmt_or_dash_money`: as `fmt_or_dash_number`, for money. -/
def fmt_or_dash_money : Option ℚ → String
  | some x => fmt_money x
  | none => emDash

/-! ## Projection and percent change -/

/-- `month_projection_for` (identical in all three scripts): run-rate
extrapolation of a partial-month total through `latest_day` to a full
month; `0` when the anchor date or the total is absent. -/
def month_projection_for (latest_day : Option Date) (mtd_total : Option ℚ) : ℚ :=
  match latest_day, mtd_total with
  | some ld, some t =>
    let next_month_first := withDay (addDays 4 (withDay ld 28)) 1
    let days_in_month : ℤ := diffDays next_month_first (withDay ld 1)
    let elapsed : ℕ := ld.d
    let daily_avg : ℚ := if elapsed ≠ 0 then t / (elapsed : ℚ) else 0
    max (daily_avg * (days_in_month : ℚ)) 0
  | _, _ => 0

/-- `pct_change` (identical in all three scripts): empty annotation on a
falsy baseline (zero or `None`), otherwise
`f" ({sign}{delta:.0f}%)"` with `sign = "+"` for `delta ≥ 0`. -/
def pct_change (curr : ℚ) (base : Option ℚ) : String :=
  match base with
  | none => ""
  | some b =>
    if b = 0 then ""
    else
      let delta := (curr - b) / b * 100
      let sign := if 0 ≤ delta then "+" else ""
      " (" ++ sign ++ float0 delta ++ "%)"

/-! ## Queries, summation, latest-day detection -/

/-- Access / refresh credentials are opaque strings. -/
abbrev Token := String

/-- One analytics row `[dateString, value]`. -/
abbrev Row := String × ℚ

/-- Result of one `yt_query` call: either the `rows` list of the JSON
response (absent `rows` modelled as `[]`, as the scripts do via
`data.get("rows") or []`), or an `HTTPError` with its status code. -/
abbrev QueryResult := Except ℕ (List Row)

instance {ε α : Type} [DecidableEq ε] [DecidableEq α] : DecidableEq (Except ε α) :=
  fun x y =>
    match x, y with
    | .ok a, .ok b =>
      if h : a = b then isTrue (by rw [h])
      else isFalse (by intro hh; cases hh; exact h rfl)
    | .error a, .error b =>
      if h : a = b then isTrue (by rw [h])
      else isFalse (by intro hh; cases hh; exact h rfl)
    | .ok _, .error _ => isFalse (by intro hh; cases hh)
    | .error _, .ok _ => isFalse (by intro hh; cases hh)

/-- `sum_metric` (all scripts): one range query, summing the value column;
an empty result sums to `0`. The HTTP error of a failed query propagates. -/
def sum_metric (q : Token → Date → Date → QueryResult) (tok : Token)
    (s e : Date) : Except ℕ ℚ :=
  (q tok s e).map (fun rows => (rows.map Prod.snd).sum)

/-- Python `max` over the date strings of a non-empty rows list
(`max(r[0] for r in rows)`); `""` is a junk value for the empty list the
scripts never reach. -/
def maxStr : List String → String
  | [] => ""
  | h :: t => t.foldl (fun a b => if a < b then b else a) h

/-- `detect_latest_day` of `main.py` / `adsense_kpi_poster.py`: window
`[today-15, today-1]`; when that returns no rows, one retry over the wider
`[today-31, today-1]`; `none` when both are empty, otherwise the maximum
date string of the returned rows, parsed.  HTTP errors propagate (the
function does not catch them). -/
def detect_latest_day_m (today : Date)
    (q : Date → Date → QueryResult) : Except ℕ (Option Date) :=
  let e := subDays 1 today
  let start1 := subDays 14 e
  match q start1 e with
  | .error st => .error st
  | .ok rows =>
    if rows = [] then
      match q (subDays 30 e) e with
      | .error st => .error st
      | .ok rows2 =>
        if rows2 = [] then .ok none
        else .ok (parseISO (maxStr (rows2.map Prod.fst)))
    else .ok (parseISO (maxStr (rows.map Prod.fst)))

/-- `detect_latest_day` of `views_kpi_poster.py`: padded window
`[end-45, end]` with `end = today + max(0, pad)`; on an HTTP error (only),
one retry over `[end-75, end]`; a successful empty result returns `none`
with no retry. -/
def detect_latest_day_v (pad_days : ℤ) (today : Date)
    (q : Date → Date → QueryResult) : Except ℕ (Option Date) :=
  let pad : ℕ := (max 0 pad_days).toNat
  let e := addDays pad today
  let start1 := subDays 45 e
  let attempt : QueryResult :=
    match q start1 e with
    | .ok rows => .ok rows
    | .error _ => q (subDays 75 e) e
  match attempt with
  | .error st => .error st
  | .ok rows =>
    if rows = [] then .ok none
    else .ok (parseISO (maxStr (rows.map Prod.fst)))

/-! ## Per-channel state and the reconciliation pass (`views_kpi_poster.py`) -/

/-- Per-channel state built by the fetch pass of `views_kpi_poster.py`
(the keys of the `per_chan[label]` dict). -/
structure Chan where
  access_token : Option Token := none
  views_latest : Option Date := none
  y_views : Option ℚ := none
  mtd_views : Option ℚ := none
  last_month_views : Option ℚ := none
  mtd_views_global : Option ℚ := none
  reason : Option String := none
deriving DecidableEq

/-- Body of the second (reconciliation) loop of `views_kpi_poster.main` for
one channel: reuse or re-acquire the access credential, then recompute the
month-to-date sum over `[first_of_month(g), g]`; a 403 or other HTTP error
records a reason and a `none` value.  `exch` models `get_access_token`
(`none` = the exchange raised). -/
def reconcile_channel (exch : Token → Option Token)
    (q : Token → Date → Date → QueryResult)
    (g : Date) (rf : Option Token) (d : Chan) : Chan :=
  let month_first_global := withDay g 1
  let step1 : Chan :=
    match d.access_token with
    | some _ => d
    | none =>
      match rf with
      | some r =>
        match exch r with
        | some tok => { d with access_token := some tok }
        | none => { d with reason := some (d.reason.getD "no_access_token") }
      | none => d
  match step1.access_token with
  | none =>
    { step1 with mtd_views_global := none,
                 reason := some (step1.reason.getD "no_access_token") }
  | some tok =>
    match sum_metric q tok month_first_global g with
    | .ok v => { step1 with mtd_views_global := some v }
    | .error st =>
      if st = 403 then
        { step1 with mtd_views_global := none, reason := some "403_forbidden" }
      else
        { step1 with mtd_views_global := none, reason := some "error" }

/-- The whole second pass of `views_kpi_poster.main`: skipped entirely when
there is no global latest day, otherwise every channel is reconciled
against `[first_of_month(g), g]`.  `rftok` is the refresh credential of a
label in the token store. -/
def reconcile_pass (exch : Token → Option Token)
    (q : Token → Date → Date → QueryResult)
    (rftok : String → Option Token)
    (global_latest : Option Date)
    (per_chan : String → Chan) : String → Chan :=
  match global_latest with
  | none => per_chan
  | some g => fun label => reconcile_channel exch q g (rftok label) (per_chan label)

/-- `global_latest` computation of `views_kpi_poster.main`: maximum of the
per-channel latest days that exist, `none` when none exists. -/
def global_latest_of (ds : List (Option Date)) : Option Date :=
  listMaxDate (ds.filterMap id)

/-! ## Report rendering -/

/-- Loop accumulator of `build_views_sections` (`views_kpi_poster.py`). -/
structure VAcc where
  y_lines : List String
  proj_lines : List String
  tot_y : ℚ
  tot_mtd_global : ℚ
  tot_last : ℚ
deriving DecidableEq

/-- One iteration of the `build_views_sections` loop. -/
def views_step (per_chan : String → Chan) (global_latest : Option Date)
    (acc : VAcc) (label : String) : VAcc :=
  let d := per_chan label
  let acc1 : VAcc :=
    match d.views_latest, d.y_views with
    | some _, some yv =>
      { acc with y_lines := acc.y_lines ++ ["• " ++ label ++ ": " ++ fmt_number yv],
                 tot_y := acc.tot_y + yv }
    | _, _ =>
      { acc with y_lines := acc.y_lines ++ ["• " ++ label ++ ": " ++ emDash] }
  match global_latest with
  | none =>
    { acc1 with proj_lines := acc1.proj_lines ++ ["• " ++ label ++ ": " ++ emDash] }
  | some g =>
    match d.mtd_views_global with
    | none =>
      { acc1 with proj_lines := acc1.proj_lines ++ ["• " ++ label ++ ": " ++ emDash] }
    | some mv =>
      let ch_proj := month_projection_for (some g) (some mv)
      { acc1 with
        proj_lines := acc1.proj_lines ++
          ["• " ++ label ++ ": " ++ fmt_number ch_proj ++ pct_change ch_proj d.last_month_views],
        tot_mtd_global := acc1.tot_mtd_global + mv,
        tot_last :=
          match d.last_month_views with
          | some lv => acc1.tot_last + lv
          | none => acc1.tot_last }

/-- Output of `build_views_sections`: the rendered lines, headers and
totals (the surrounding Slack block scaffolding carries no further data). -/
structure ViewsSections where
  header_title : String
  header_y : String
  header_proj : String
  y_lines : List String
  proj_lines : List String
  tot_y : Option ℚ
  tot_mtd_global : ℚ
  tot_last : Option ℚ
  tot_proj : Option ℚ
deriving DecidableEq

/-- `build_views_sections` of `views_kpi_poster.py`: per-channel yesterday
and (global-anchored) projection lines, then totals; all totals become
`None` when there is no global latest day. -/
def build_views_sections (labels : List String) (per_chan : String → Chan)
    (global_latest : Option Date) : ViewsSections :=
  let acc := labels.foldl (views_step per_chan global_latest) ⟨[], [], 0, 0, 0⟩
  let tot_proj : Option ℚ :=
    match global_latest with
    | some g => some (month_projection_for (some g) (some acc.tot_mtd_global))
    | none => none
  let tot_y : Option ℚ :=
    match global_latest with
    | none => none
    | some _ => some acc.tot_y
  let tot_last : Option ℚ :=
    match global_latest with
    | none => none
    | some _ => some acc.tot_last
  let header_title :=
    match global_latest with
    | some g => "*Views KPI* (" ++ fmt_day g ++ ")"
    | none => "*Views KPI*"
  let header_y := ":spiral_calendar_pad: *Yesterday:* " ++ fmt_or_dash_number tot_y
  let header_proj :=
    ":calendar: *This Month Projection:* " ++ fmt_or_dash_number tot_proj ++
      (match tot_proj, tot_last with
       | some tp, some tl => if tl = 0 then "" else pct_change tp (some tl)
       | _, _ => "")
  ⟨header_title, header_y, header_proj, acc.y_lines, acc.proj_lines,
   tot_y, acc.tot_mtd_global, tot_last, tot_proj⟩

/-- Per-channel, per-metric-family figures as read by the renderers of
`main.py` (keys `{latest_key, y_, mtd_, last_month_}` of a `per_chan`
entry) and of `adsense_kpi_poster.py`. -/
structure MChan where
  latest : Option Date := none
  y : Option ℚ := none
  mtd : Option ℚ := none
  last : Option ℚ := none
deriving DecidableEq

/-- Loop accumulator of `build_section_lists` (`main.py`). -/
structure SAcc where
  y_lines : List String
  proj_lines : List String
  total_y : ℚ
  total_mtd : ℚ
  total_last : ℚ
  latest_candidates : List Date
deriving DecidableEq

/-- One iteration of the `build_section_lists` loop (`main.py`): the
projection line of a channel is anchored at that channel's own detected
latest day. -/
def section_step (per_chan : String → MChan) (fmt : ℚ → String)
    (acc : SAcc) (label : String) : SAcc :=
  let d := per_chan label
  let acc1 : SAcc :=
    match d.latest, d.y with
    | some _, some yv =>
      { acc with y_lines := acc.y_lines ++ ["• " ++ label ++ ": " ++ fmt yv],
                 total_y := acc.total_y + yv }
    | _, _ =>
      { acc with y_lines := acc.y_lines ++ ["• " ++ label ++ ": " ++ emDash] }
  match d.latest, d.mtd with
  | some latest, some mtd_val =>
    let ch_proj := month_projection_for (some latest) (some mtd_val)
    let ch_pct := pct_change ch_proj d.last
    { acc1 with
      proj_lines := acc1.proj_lines ++ ["• " ++ label ++ ": " ++ fmt ch_proj ++ ch_pct],
      total_mtd := acc1.total_mtd + mtd_val,
      total_last :=
        match d.last with
        | some lv => acc1.total_last + lv
        | none => acc1.total_last,
      latest_candidates := acc1.latest_candidates ++ [latest] }
  | _, _ =>
    { acc1 with proj_lines := acc1.proj_lines ++ ["• " ++ label ++ ": " ++ emDash] }

/-- Output of `build_section_lists` (`main.py`): note the totals are plain
numbers (the Python accumulators start at `0.0` and are never set to
`None`). -/
structure SectionLists where
  y_lines : List String
  proj_lines : List String
  total_y : ℚ
  total_mtd : ℚ
  total_last : ℚ
  total_proj : ℚ
  global_latest : Option Date
deriving DecidableEq

/-- `build_section_lists` of `main.py` (shared by its revenue and views
sections; `fmt` is the injected value formatter). -/
def build_section_lists (labels : List String) (per_chan : String → MChan)
    (fmt : ℚ → String) : SectionLists :=
  let acc := labels.foldl (section_step per_chan fmt) ⟨[], [], 0, 0, 0, []⟩
  let global_latest := listMaxDate acc.latest_candidates
  let total_proj : ℚ :=
    match global_latest with
    | some g => month_projection_for (some g) (some acc.total_mtd)
    | none => 0
  ⟨acc.y_lines, acc.proj_lines, acc.total_y, acc.total_mtd, acc.total_last,
   total_proj, global_latest⟩

/-- The revenue headers assembled by `slack_blocks_full` (`main.py`,
lines 361-362): the totals from `build_section_lists` are floats, so
`fmt_or_dash_money` always takes its number branch. -/
def slack_rev_headers (labels : List String) (per_chan : String → MChan) :
    String × String :=
  let o := build_section_lists labels per_chan fmt_money
  (":spiral_calendar_pad: *Yesterday:* " ++ fmt_or_dash_money (some o.total_y),
   ":calendar: *This Month Projection:* " ++ fmt_or_dash_money (some o.total_proj) ++
     pct_change o.total_proj (some o.total_last))

/-- Loop accumulator of `build_revenue_sections` (`adsense_kpi_poster.py`). -/
structure RAcc where
  y_lines : List String
  proj_lines : List String
  tot_y : ℚ
  tot_mtd : ℚ
  tot_last : ℚ
  latest_candidates : List Date
  y_date_candidates : List Date
deriving DecidableEq

/-- One iteration of the `build_revenue_sections` loop. -/
def revenue_step (per_chan : String → MChan) (acc : RAcc) (label : String) : RAcc :=
  let d := per_chan label
  let acc1 : RAcc :=
    match d.latest, d.y with
    | some latest, some yv =>
      { acc with y_lines := acc.y_lines ++ ["• " ++ label ++ ": " ++ fmt_money yv],
                 tot_y := acc.tot_y + yv,
                 y_date_candidates := acc.y_date_candidates ++ [latest] }
    | _, _ =>
      { acc with y_lines := acc.y_lines ++ ["• " ++ label ++ ": " ++ emDash] }
  match d.latest, d.mtd with
  | some latest, some mtd_val =>
    let ch_proj := month_projection_for (some latest) (some mtd_val)
    { acc1 with
      proj_lines := acc1.proj_lines ++
        ["• " ++ label ++ ": " ++ fmt_money ch_proj ++ pct_change ch_proj d.last],
      tot_mtd := acc1.tot_mtd + mtd_val,
      tot_last :=
        match d.last with
        | some lv => acc1.tot_last + lv
        | none => acc1.tot_last,
      latest_candidates := acc1.latest_candidates ++ [latest] }
  | _, _ =>
    { acc1 with proj_lines := acc1.proj_lines ++ ["• " ++ label ++ ": " ++ emDash] }

/-- Output of `build_revenue_sections` (`adsense_kpi_poster.py`): when no
channel contributed, every total is reset to `None`. -/
structure RevenueSections where
  y_lines : List String
  proj_lines : List String
  tot_y : Option ℚ
  tot_mtd : Option ℚ
  tot_last : Option ℚ
  tot_proj : Option ℚ
  global_latest : Option Date
  y_date : String
  header_y : String
  header_proj : String
deriving DecidableEq

/-- `build_revenue_sections` of `adsense_kpi_poster.py` (lines 362-375 hold
the totals-and-headers epilogue embedded here). -/
def build_revenue_sections (labels : List String) (per_chan : String → MChan) :
    RevenueSections :=
  let acc := labels.foldl (revenue_step per_chan) ⟨[], [], 0, 0, 0, [], []⟩
  let has_any := acc.latest_candidates ≠ []
  let global_latest := listMaxDate acc.latest_candidates
  let tot_proj : Option ℚ :=
    if has_any then some (month_projection_for global_latest (some acc.tot_mtd))
    else none
  let tot_y : Option ℚ := if has_any then some acc.tot_y else none
  let tot_mtd : Option ℚ := if has_any then some acc.tot_mtd else none
  let tot_last : Option ℚ := if has_any then some acc.tot_last else none
  let y_date : String :=
    match listMaxDate acc.y_date_candidates with
    | some dt => isoformat dt
    | none => emDash
  let header_y := ":spiral_calendar_pad: *Yesterday:* " ++ fmt_or_dash_money tot_y
  let header_proj :=
    ":calendar: *This Month [P]:* " ++ fmt_or_dash_money tot_proj ++
      (match tot_proj, tot_last with
       | some tp, some tl => if tl = 0 then "" else pct_change tp (some tl)
       | _, _ => "")
  ⟨acc.y_lines, acc.proj_lines, tot_y, tot_mtd, tot_last, tot_proj,
   global_latest, y_date, header_y, header_proj⟩

/-- The projection line `build_views_sections` renders for a label under a
global latest day `g`. -/
def views_proj_line (pc : String → Chan) (g : Date) (l : String) : String :=
  match (pc l).mtd_views_global with
  | none => "• " ++ l ++ ": " ++ emDash
  | some mv =>
    "• " ++ l ++ ": " ++ fmt_number (month_projection_for (some g) (some mv)) ++
      pct_change (month_projection_for (some g) (some mv)) (pc l).last_month_views

/-- The yesterday line `build_revenue_sections` renders for a label. -/
def rev_y_line (pc : String → MChan) (l : String) : String :=
  match (pc l).latest, (pc l).y with
  | some _, some yv => "• " ++ l ++ ": " ++ fmt_money yv
  | _, _ => "• " ++ l ++ ": " ++ emDash

/-- The projection line `build_revenue_sections` renders for a label
(anchored at the channel's own latest day). -/
def rev_proj_line (pc : String → MChan) (l : String) : String :=
  match (pc l).latest, (pc l).mtd with
  | some latest, some mtd_val =>
    "• " ++ l ++ ": " ++ fmt_money (month_projection_for (some latest) (some mtd_val)) ++
      pct_change (month_projection_for (some latest) (some mtd_val)) (pc l).last
  | _, _ => "• " ++ l ++ ": " ++ emDash

/-! ## Token-store loader (`load_tokens_file`, identical in all scripts)

The loader applies four textual regex passes to the whole file and then
standard JSON parsing.  The regex passes are embedded below with the exact
`re.sub` semantics (leftmost, non-overlapping matches; `^`/`$` in
multiline mode; `\s` spanning newlines).  Standard JSON parsing
(`json.loads`) is an external collaborator; `jsonParse` below is its
reference semantics on the JSON subset without `\uXXXX` escapes and
exponent notation, which suffices for the inputs examined. -/

/-- JSON values. -/
inductive JVal where
  | jstr : String → JVal
  | jnum : ℚ → JVal
  | jbool : Bool → JVal
  | jnull : JVal
  | jarr : List JVal → JVal
  | jobj : List (String × JVal) → JVal

/-- JSON whitespace. -/
def isJsonWs (c : Char) : Bool :=
  c == ' ' || c == '\t' || c == '\n' || c == '\r'

/-- Python regex `\s` (ASCII): space, tab, newline, return, vertical tab,
form feed. -/
def isPySpace (c : Char) : Bool :=
  c == ' ' || c == '\t' || c == '\n' || c == '\r' || c == '\x0b' || c == '\x0c'

/-- Skip JSON whitespace. -/
def skipWs (s : List Char) : List Char := s.dropWhile isJsonWs

/-- JSON string escapes (`\uXXXX` unsupported in this model). -/
def escMap (c : Char) : Option Char :=
  if c = '"' then some '"'
  else if c = '\\' then some '\\'
  else if c = '/' then some '/'
  else if c = 'b' then some '\x08'
  else if c = 'f' then some '\x0c'
  else if c = 'n' then some '\n'
  else if c = 'r' then some '\r'
  else if c = 't' then some '\t'
  else none

/-- Parse a JSON string body (after the opening quote), returning its
characters and the remaining input. -/
def parseJStr : ℕ → List Char → Option (List Char × List Char)
  | 0, _ => none
  | _ + 1, [] => none
  | fuel + 1, c :: rest =>
    if c = '"' then some ([], rest)
    else if c = '\\' then
      match rest with
      | e :: rest2 =>
        match escMap e with
        | some ec =>
          match parseJStr fuel rest2 with
          | some (cs, r) => some (ec :: cs, r)
          | none => none
        | none => none
      | [] => none
    else if c.toNat < 32 then none
    else
      match parseJStr fuel rest with
      | some (cs, r) => some (c :: cs, r)
      | none => none

/-- Parse a JSON number (integer or decimal fraction). -/
def parseJNum (s : List Char) : Option (ℚ × List Char) :=
  let (neg, s1) : Bool × List Char :=
    match s with
    | '-' :: t => (true, t)
    | _ => (false, s)
  let ip := s1.takeWhile Char.isDigit
  if ip = [] then none
  else
    let s2 := s1.drop ip.length
    match s2 with
    | '.' :: t =>
      let fp := t.takeWhile Char.isDigit
      if fp = [] then none
      else
        let mant : ℚ := (digitsToNat ip : ℚ) + (digitsToNat fp : ℚ) / ((10 : ℚ) ^ fp.length)
        some ((if neg then -mant else mant), t.drop fp.length)
    | _ => some ((if neg then -(digitsToNat ip : ℚ) else (digitsToNat ip : ℚ)), s2)

mutual

/-- Parse one JSON value from the input. -/
def parseVal : ℕ → List Char → Option (JVal × List Char)
  | 0, _ => none
  | fuel + 1, s =>
    match skipWs s with
    | [] => none
    | c :: rest =>
      if c = '"' then
        match parseJStr (rest.length + 1) rest with
        | some (cs, r) => some (JVal.jstr (String.mk cs), r)
        | none => none
      else if c = '\x7b' then
        match skipWs rest with
        | '\x7d' :: r => some (JVal.jobj [], r)
        | r2 =>
          match parseMembers fuel r2 with
          | some (kvs, r) => some (JVal.jobj kvs, r)
          | none => none
      else if c = '[' then
        match skipWs rest with
        | ']' :: r => some (JVal.jarr [], r)
        | r2 =>
          match parseItems fuel r2 with
          | some (vs, r) => some (JVal.jarr vs, r)
          | none => none
      else if (c :: rest).take 4 = ['t', 'r', 'u', 'e'] then
        some (JVal.jbool true, (c :: rest).drop 4)
      else if (c :: rest).take 5 = ['f', 'a', 'l', 's', 'e'] then
        some (JVal.jbool false, (c :: rest).drop 5)
      else if (c :: rest).take 4 = ['n', 'u', 'l', 'l'] then
        some (JVal.jnull, (c :: rest).drop 4)
      else
        match parseJNum (c :: rest) with
        | some (qv, r) => some (JVal.jnum qv, r)
        | none => none

/-- Parse the members of a non-empty JSON object (positioned at a key). -/
def parseMembers : ℕ → List Char → Option (List (String × JVal) × List Char)
  | 0, _ => none
  | fuel + 1, s =>
    match skipWs s with
    | '"' :: rest =>
      match parseJStr (rest.length + 1) rest with
      | some (kcs, r1) =>
        match skipWs r1 with
        | ':' :: r2 =>
          match parseVal fuel r2 with
          | some (v, r3) =>
            (match skipWs r3 with
             | ',' :: r4 =>
               match parseMembers fuel r4 with
               | some (kvs, r5) => some ((String.mk kcs, v) :: kvs, r5)
               | none => none
             | '\x7d' :: r4 => some ([(String.mk kcs, v)], r4)
             | _ => none)
          | none => none
        | _ => none
      | none => none
    | _ => none

/-- Parse the items of a non-empty JSON array (positioned at a value). -/
def parseItems : ℕ → List Char → Option (List JVal × List Char)
  | 0, _ => none
  | fuel + 1, s =>
    match parseVal fuel s with
    | some (v, r1) =>
      (match skipWs r1 with
       | ',' :: r2 =>
         match parseItems fuel r2 with
         | some (vs, r3) => some (v :: vs, r3)
         | none => none
       | ']' :: r2 => some ([v], r2)
       | _ => none)
    | none => none

end

/-- Standard JSON parse of a whole string (`json.loads` reference
semantics on the supported subset; `none` models a raised `JSONDecodeError`). -/
def jsonParse (s : String) : Option JVal :=
  match parseVal (s.length + 1) s.data with
  | some (v, rest) => if skipWs rest = [] then some v else none
  | none => none

/-- Position of text after the first `*/`, if any. -/
def findClose : List Char → Option (List Char)
  | '*' :: '/' :: r => some r
  | _ :: r => findClose r
  | [] => none

/-- `re.sub(r"/\*.*?\*/", "", raw, flags=re.S)`: each leftmost `/*` is
removed together with everything up to the nearest following `*/`; a `/*`
with no later `*/` stays (the regex cannot match there). -/
def stripBlock : ℕ → List Char → List Char
  | 0, s => s
  | _ + 1, [] => []
  | fuel + 1, '/' :: '*' :: rest =>
    (match findClose rest with
     | some r => stripBlock fuel r
     | none => '/' :: '*' :: rest)
  | fuel + 1, c :: rest => c :: stripBlock fuel rest

/-- Drop up to (excluding) the first newline. -/
def dropLine : List Char → List Char
  | [] => []
  | '\n' :: r => '\n' :: r
  | _ :: r => dropLine r

/-- Split at the first newline (the newline stays with the remainder). -/
def spanToNl (s : List Char) : List Char × List Char :=
  (s.takeWhile (fun c => !(c == '\n')), s.dropWhile (fun c => !(c == '\n')))

/-- `re.sub(r"^\s*MARKER.*?$", "", raw, flags=re.M)`: at each line start,
if some run of whitespace (which may span blank lines) is followed by the
marker, everything from the line start to the end of the marker's line is
removed; otherwise scanning resumes at the next line. -/
def stripLineMarked (marker : List Char) : ℕ → List Char → List Char
  | 0, s => s
  | fuel + 1, s =>
    let ws := s.takeWhile isPySpace
    let rest := s.drop ws.length
    if marker.isPrefixOf rest then
      match dropLine rest with
      | [] => []
      | nl :: r => nl :: stripLineMarked marker fuel r
    else
      match spanToNl s with
      | (line, []) => line
      | (line, nl :: r) => line ++ nl :: stripLineMarked marker fuel r

/-- `re.sub(r",\s*([}\]])", r"\1", raw)`: drop a comma (and intervening
whitespace) standing directly before a closing brace or bracket. -/
def stripTrailingCommas : ℕ → List Char → List Char
  | 0, s => s
  | _ + 1, [] => []
  | fuel + 1, ',' :: rest =>
    let ws := rest.takeWhile isPySpace
    (match rest.drop ws.length with
     | c :: r3 =>
       if c = '\x7d' ∨ c = ']' then c :: stripTrailingCommas fuel r3
       else ',' :: stripTrailingCommas fuel rest
     | [] => ',' :: stripTrailingCommas fuel rest)
  | fuel + 1, c :: rest => c :: stripTrailingCommas fuel rest

/-- The four comment/trailing-comma `re.sub` passes of `load_tokens_file`,
in source order, applied to the whole file text. -/
def stripLenient (raw : String) : String :=
  let s1 := stripBlock (raw.length + 1) raw.data
  let s2 := stripLineMarked ['/', '/'] (s1.length + 1) s1
  let s3 := stripLineMarked ['#'] (s2.length + 1) s2
  let s4 := stripTrailingCommas (s3.length + 1) s3
  String.mk s4

/-- `load_tokens_file` (all scripts): regex passes, then `json.loads`, then
the non-empty-object check; any failure raises, modelled as `none`. -/
def load_tokens_file (raw : String) : Option (List (String × JVal)) :=
  match jsonParse (stripLenient raw) with
  | some (JVal.jobj []) => none
  | some (JVal.jobj kvs) => some kvs
  | _ => none

/-! ## Concrete inputs used by counterexamples and witnesses -/

/-- Renderer input with two channels whose detected latest days differ
(A through 2025-10-15 with MTD 1000, B through 2025-10-14 with MTD 500). -/
def perChanAB : String → MChan := fun l =>
  if l = "A" then { latest := some ⟨2025, 10, 15⟩, y := some 40, mtd := some 1000 }
  else if l = "B" then { latest := some ⟨2025, 10, 14⟩, y := some 20, mtd := some 500 }
  else {}

/-- Renderer input where no channel produced any data. -/
def perChanEmpty : String → MChan := fun _ => {}

/-- Query oracle whose 45-day window (starting 2025-09-07 for the padded
end 2025-10-22) succeeds with no rows, while any other window has a row. -/
def qEmptyNarrow : Date → Date → QueryResult := fun s _ =>
  if s.m = 9 then .ok [] else .ok [("2025-10-15", 5)]

/-- Token-store file text that is already valid standard JSON: the value of
`refresh_token` contains the character sequences `/*` and `*/`. -/
def tokensRawC10 : String :=
  "\x7b\"alpha\": \x7b\"refresh_token\": \"x/*y*/z\"\x7d\x7d"

/-- Fetch-pass channel state for witnesses: a cached access credential and
a detected latest day of 2025-10-14. -/
def chanW : Chan :=
  { access_token := some "tokA", views_latest := some ⟨2025, 10, 14⟩,
    mtd_views := some 500 }

/-- Query oracle for witnesses: every range has the single row
`["2025-10-05", 7]`. -/
def qOkW : Token → Date → Date → QueryResult := fun _ _ _ => .ok [("2025-10-05", 7)]

/-- Credential-exchange oracle for witnesses: always succeeds. -/
def exchW : Token → Option Token := fun _ => some "fresh"

/-- Tokenless query oracle for witnesses: every range has the single row
`["2025-10-05", 7]`. -/
def qRowsW : Date → Date → QueryResult := fun _ _ => .ok [("2025-10-05", 7)]

/-! ## Date arithmetic lemmas -/

theorem daysBeforeYear_succ (y : ℤ) :
    daysBeforeYear (y + 1) =
      daysBeforeYear y + 365 + (if isLeap y then 1 else 0) := by
  unfold daysBeforeYear
  have hy : y + 1 - 1 = y := by ring
  rw [hy]
  rcases Bool.eq_false_or_eq_true (isLeap y) with L | L <;>
    rw [L] <;>
    simp only [isLeap, Bool.or_eq_true, Bool.and_eq_true, beq_iff_eq,
      Bool.not_eq_true', beq_eq_false_iff_ne, ne_eq, Bool.or_eq_false_iff,
      Bool.and_eq_false_iff, Bool.not_eq_false'] at L <;>
    simp only [Bool.false_eq_true, if_false, if_true, reduceIte] <;>
    omega

theorem addDays_four (dt : Date) :
    addDays 4 dt = nextDay (nextDay (nextDay (nextDay dt))) := rfl

theorem nextDay_mk (y : ℤ) (m d : ℕ) :
    nextDay ⟨y, m, d⟩ =
      if d < daysInMonth y m then ⟨y, m, d + 1⟩
      else if m < 12 then ⟨y, m + 1, 1⟩
      else ⟨y + 1, 1, 1⟩ := rfl

theorem monthLenCode_eq (y : ℤ) (m : ℕ) (h1 : 1 ≤ m) (h2 : m ≤ 12) :
    monthLenCode y m = daysInMonth y m := by
  have hs := daysBeforeYear_succ y
  interval_cases m <;>
    rcases L : isLeap y <;>
    simp only [L, Bool.false_eq_true, if_false, if_true, reduceIte] at hs <;>
    simp [monthLenCode, addDays_four, nextDay_mk, daysInMonth, withDay,
      diffDays, toOrdinal, daysBeforeMonth, L, hs] <;>
    omega

theorem month_projection_some (ld : Date) (t : ℚ) (hd : ld.d ≠ 0) :
    month_projection_for (some ld) (some t) =
      max (t / (ld.d : ℚ) * (monthLenCode ld.y ld.m : ℚ)) 0 := by
  simp only [month_projection_for, monthLenCode, withDay]
  rw [if_pos hd]

/-! ## Claim C7 -/

/-- C7: the number of days in the anchor month used by the projection
(day 28, plus 4 days, truncated to the first of the next month, differenced
with the first of the anchor month) equals the true Gregorian month length
for every month 1-12 in every year, leap years included. -/
theorem c7_month_length (y : ℤ) (m : ℕ) (h1 : 1 ≤ m) (h2 : m ≤ 12) :
    monthLenCode y m = daysInMonth y m :=
  monthLenCode_eq y m h1 h2

theorem c7_month_length_witness :
    monthLenCode 2024 2 = daysInMonth 2024 2 ∧ daysInMonth 2024 2 = 29 ∧
    monthLenCode 2023 2 = 28 ∧ monthLenCode 2025 4 = 30 ∧ monthLenCode 2025 1 = 31 :=
  ⟨c7_month_length 2024 2 (by decide) (by decide), by decide, by decide,
   by decide, by decide⟩

/-! ## Claim C3 -/

/-- C3 fails on the code: at the first-of-month anchor 2025-10-01 with
total 10, the projection returns `10 × 31 = 310`, not the total itself. -/
theorem c3_counterexample :
    month_projection_for (some ⟨2025, 10, 1⟩) (some 10) = 310 ∧
    month_projection_for (some ⟨2025, 10, 1⟩) (some 10) ≠ 10 := by
  have h := month_projection_some ⟨2025, 10, 1⟩ 10 (by decide)
  rw [show monthLenCode 2025 10 = 31 from by decide] at h
  norm_num at h
  exact ⟨h, by rw [h]; norm_num⟩

/-- C3 amended: for a first-of-month anchor the daily average equals the
total `T` itself, so the projection returns `T × days_in_month(D)` (not
`T`): for every year, month 1-12 and non-negative total. -/
theorem c3_amended (y : ℤ) (m : ℕ) (t : ℚ) (h1 : 1 ≤ m) (h2 : m ≤ 12)
    (ht : 0 ≤ t) :
    month_projection_for (some ⟨y, m, 1⟩) (some t) = t * (daysInMonth y m : ℚ) := by
  have h := month_projection_some ⟨y, m, 1⟩ t (by exact one_ne_zero)
  rw [monthLenCode_eq y m h1 h2] at h
  simpa [max_eq_left (mul_nonneg ht (by positivity : (0:ℚ) ≤ (daysInMonth y m : ℚ)))]
    using h

theorem c3_amended_witness :
    month_projection_for (some ⟨2025, 10, 1⟩) (some 10) = 10 * (daysInMonth 2025 10 : ℚ) ∧
    (10 : ℚ) * (daysInMonth 2025 10 : ℚ) = 310 :=
  ⟨c3_amended 2025 10 10 (by decide) (by decide) (by norm_num),
   by norm_num [daysInMonth, isLeap]⟩

/-! ## Claim C6 -/

/-- C6: `sum_metric` sums the numeric value column of the rows its one
range query returns, and an empty result set sums to `0`, never `none`
(the return type carries no absent case on success). -/
theorem c6_sum_metric (q : Token → Date → Date → QueryResult) (tok : Token)
    (s e : Date) (rows : List Row) (h : q tok s e = .ok rows) :
    sum_metric q tok s e = .ok ((rows.map Prod.snd).sum) ∧
    (rows = [] → sum_metric q tok s e = .ok 0) := by
  refine ⟨by simp [sum_metric, h, Except.map], fun hr => ?_⟩
  subst hr
  simp [sum_metric, h, Except.map]

theorem c6_sum_metric_witness :
    sum_metric (fun _ _ _ => .ok ([] : List Row)) "t" ⟨2025, 10, 1⟩ ⟨2025, 10, 15⟩ =
      .ok 0 :=
  (c6_sum_metric (fun _ _ _ => .ok ([] : List Row)) "t" ⟨2025, 10, 1⟩ ⟨2025, 10, 15⟩
    [] rfl).2 rfl

/-! ## Rounding helper lemmas -/

theorem str_assoc (a b c : String) : a ++ b ++ c = a ++ (b ++ c) := by
  rcases a with ⟨la⟩; rcases b with ⟨lb⟩; rcases c with ⟨lc⟩
  show String.mk (la ++ lb ++ lc) = String.mk (la ++ (lb ++ lc))
  rw [List.append_assoc]

theorem rhe_dist (q : ℚ) : |q - (rhe q : ℚ)| ≤ 1/2 := by
  have h0 : (0 : ℚ) ≤ q - ⌊q⌋ := by
    have := Int.floor_le q; linarith
  have h1 : q - (⌊q⌋ : ℚ) < 1 := by
    have := Int.lt_floor_add_one q; linarith
  unfold rhe
  split
  · rw [abs_of_nonneg h0]; linarith
  · rename_i h2
    split
    · push_cast
      rw [abs_of_nonpos (by linarith)]
      linarith
    · rename_i h3
      have he : q - (⌊q⌋ : ℚ) = 1/2 := le_antisymm (not_lt.mp h3) (not_lt.mp h2)
      split
      · rw [abs_of_nonneg h0]; linarith
      · push_cast
        rw [abs_of_nonpos (by linarith)]
        linarith

theorem rhe_nonneg (q : ℚ) (h : 0 ≤ q) : 0 ≤ rhe q := by
  have hf : 0 ≤ ⌊q⌋ := Int.le_floor.mpr (by exact_mod_cast h)
  unfold rhe
  split
  · exact hf
  · split
    · omega
    · split <;> omega

/-! ## Claim C9 -/

/-- C9: `pct_change` returns the empty annotation on a falsy baseline
(`None` or zero) before any division; otherwise it renders
`(delta/baseline)*100` rounded to the nearest whole percent with a `+`
sign for non-negative deltas and no added sign for negative ones;
`pct_change(110, 100)` shows `+10%` and `pct_change(90, 100)` shows
`-10%`. -/
theorem c9_pct_change :
    (∀ c : ℚ, pct_change c none = "") ∧
    (∀ c : ℚ, pct_change c (some 0) = "") ∧
    pct_change 110 (some 100) = " (+10%)" ∧
    pct_change 90 (some 100) = " (-10%)" ∧
    (∀ c b : ℚ, b ≠ 0 → 0 ≤ (c - b) / b * 100 →
      ∃ n : ℤ, 0 ≤ n ∧ |(c - b) / b * 100 - (n : ℚ)| ≤ 1/2 ∧
        pct_change c (some b) = " (+" ++ toString n.toNat ++ "%)") ∧
    (∀ c b : ℚ, b ≠ 0 → (c - b) / b * 100 < 0 →
      ∃ n : ℤ, 0 ≤ n ∧ |(c - b) / b * 100 + (n : ℚ)| ≤ 1/2 ∧
        pct_change c (some b) = " (-" ++ toString n.toNat ++ "%)") := by
  refine ⟨fun c => rfl, fun c => by simp [pct_change], ?_, ?_, ?_, ?_⟩
  · norm_num [pct_change, float0, rhe]
    rfl
  · norm_num [pct_change, float0, rhe]
    rfl
  · intro c b hb hd
    refine ⟨rhe ((c - b) / b * 100), rhe_nonneg _ hd, rhe_dist _, ?_⟩
    simp only [pct_change, if_neg hb, float0, if_pos hd, if_neg (not_lt.mpr hd)]
    rw [show (" (" ++ "+" : String) = " (+" from rfl]
  · intro c b hb hd
    refine ⟨rhe (-((c - b) / b * 100)), rhe_nonneg _ (by linarith), ?_, ?_⟩
    · have := rhe_dist (-((c - b) / b * 100))
      rw [abs_sub_comm] at this
      calc |(c - b) / b * 100 + (rhe (-((c - b) / b * 100)) : ℚ)|
          = |(rhe (-((c - b) / b * 100)) : ℚ) - -((c - b) / b * 100)| := by
            rw [sub_neg_eq_add, add_comm]
        _ ≤ 1/2 := this
    · simp only [pct_change, if_neg hb, float0, if_pos hd,
        if_neg (not_le.mpr hd)]
      rw [show (" (" ++ "" : String) = " (" from rfl, str_assoc]
      rfl

theorem c9_pct_change_witness :
    ∃ n : ℤ, 0 ≤ n ∧ |((110 : ℚ) - 100) / 100 * 100 - (n : ℚ)| ≤ 1/2 ∧
      pct_change 110 (some 100) = " (+" ++ toString n.toNat ++ "%)" :=
  c9_pct_change.2.2.2.2.1 110 100 (by norm_num) (by norm_num)

/-! ## More date arithmetic: predecessors and ordinals -/

theorem daysInMonth_ge (y : ℤ) (m : ℕ) : 28 ≤ daysInMonth y m := by
  unfold daysInMonth
  split
  · split <;> omega
  · split <;> omega

theorem daysBeforeMonth_step (y : ℤ) (m : ℕ) (h1 : 2 ≤ m) (h2 : m ≤ 12) :
    daysBeforeMonth y m = daysBeforeMonth y (m - 1) + daysInMonth y (m - 1) := by
  interval_cases m <;>
    rcases L : isLeap y <;>
    simp [daysBeforeMonth, daysInMonth, L]

theorem valid_prevDay (dt : Date) (hv : ValidDate dt) : ValidDate (prevDay dt) := by
  obtain ⟨hm1, hm2, hd1, hd2⟩ := hv
  unfold prevDay
  split
  · rename_i h
    exact ⟨hm1, hm2, by show 1 ≤ dt.d - 1; omega,
      by show dt.d - 1 ≤ daysInMonth dt.y dt.m; omega⟩
  · split
    · rename_i h1 h2
      refine ⟨by show 1 ≤ dt.m - 1; omega, by show dt.m - 1 ≤ 12; omega, ?_, ?_⟩
      · show 1 ≤ daysInMonth dt.y (dt.m - 1)
        have := daysInMonth_ge dt.y (dt.m - 1)
        omega
      · show daysInMonth dt.y (dt.m - 1) ≤ daysInMonth dt.y (dt.m - 1)
        exact le_refl _
    · refine ⟨by show 1 ≤ 12; omega, by show 12 ≤ 12; omega,
        by show 1 ≤ 31; omega, ?_⟩
      show 31 ≤ daysInMonth (dt.y - 1) 12
      norm_num [daysInMonth]

theorem toOrdinal_prevDay (dt : Date) (hv : ValidDate dt) :
    toOrdinal (prevDay dt) = toOrdinal dt - 1 := by
  obtain ⟨hm1, hm2, hd1, hd2⟩ := hv
  unfold prevDay
  split
  · rename_i h
    show daysBeforeYear dt.y + (daysBeforeMonth dt.y dt.m : ℤ) + ((dt.d - 1 : ℕ) : ℤ) = _
    unfold toOrdinal
    omega
  · split
    · rename_i h1 h2
      have key := daysBeforeMonth_step dt.y dt.m (by omega) hm2
      show daysBeforeYear dt.y + (daysBeforeMonth dt.y (dt.m - 1) : ℤ) +
        ((daysInMonth dt.y (dt.m - 1) : ℕ) : ℤ) = _
      unfold toOrdinal
      omega
    · rename_i h1 h2
      have hm : dt.m = 1 := by omega
      have hd : dt.d = 1 := by omega
      have hs := daysBeforeYear_succ (dt.y - 1)
      rw [show dt.y - 1 + 1 = dt.y from by ring] at hs
      show daysBeforeYear (dt.y - 1) + (daysBeforeMonth (dt.y - 1) 12 : ℤ) + (31 : ℕ) = _
      unfold toOrdinal
      rw [hm, hd]
      rcases L : isLeap (dt.y - 1) <;>
        simp only [L, Bool.false_eq_true, if_false, if_true, reduceIte] at hs <;>
        simp [daysBeforeMonth, L, hs] <;>
        omega

theorem subDays_spec (n : ℕ) (dt : Date) (hv : ValidDate dt) :
    ValidDate (subDays n dt) ∧ toOrdinal (subDays n dt) = toOrdinal dt - n := by
  induction n generalizing dt with
  | zero => exact ⟨hv, by simp [subDays]⟩
  | succ k ih =>
    have hv1 := valid_prevDay dt hv
    have h1 := toOrdinal_prevDay dt hv
    obtain ⟨a, b⟩ := ih (prevDay dt) hv1
    refine ⟨a, ?_⟩
    show toOrdinal (subDays k (prevDay dt)) = _
    rw [b, h1]
    push_cast
    ring

/-! ## Claim C5 -/

set_option maxRecDepth 8000 in
/-- C5 fails on the code of `views_kpi_poster.py`: with an oracle whose
first (45-day) query succeeds with no rows while the wider 75-day window
holds a parseable row, `detect_latest_day` returns `none` without making
the claimed wider retry. -/
theorem c5_counterexample :
    detect_latest_day_v 2 ⟨2025, 10, 20⟩ qEmptyNarrow = .ok none ∧
    qEmptyNarrow (subDays 75 (addDays 2 ⟨2025, 10, 20⟩)) (addDays 2 ⟨2025, 10, 20⟩) ≠
      .ok [] ∧
    parseISO "2025-10-15" = some ⟨2025, 10, 15⟩ := by
  refine ⟨by decide, by decide, by decide⟩

/-- C5 amended: in `main.py`'s `detect_latest_day` an empty first query
triggers exactly one retry over a strictly wider backward window (30 days
back versus 14) and the result of a non-empty query is the maximum date
string among its rows, parsed, with `none` only when both are empty; in
`views_kpi_poster.py`'s variant the wider retry (75 versus 45 days back)
happens only on an HTTP error — a successful empty first result returns
`none` immediately, with no retry. -/
theorem c5_detect_latest_day (today : Date) (q : Date → Date → QueryResult) :
    (∀ rows, q (subDays 14 (subDays 1 today)) (subDays 1 today) = .ok rows →
       rows ≠ [] →
       detect_latest_day_m today q = .ok (parseISO (maxStr (rows.map Prod.fst)))) ∧
    (∀ rows2, q (subDays 14 (subDays 1 today)) (subDays 1 today) = .ok [] →
       q (subDays 30 (subDays 1 today)) (subDays 1 today) = .ok rows2 →
       detect_latest_day_m today q =
         .ok (if rows2 = [] then none
              else parseISO (maxStr (rows2.map Prod.fst)))) ∧
    (ValidDate today →
       toOrdinal (subDays 30 (subDays 1 today)) <
         toOrdinal (subDays 14 (subDays 1 today))) ∧
    (∀ pad, q (subDays 45 (addDays (max 0 pad).toNat today))
              (addDays (max 0 pad).toNat today) = .ok [] →
       detect_latest_day_v pad today q = .ok none) ∧
    (∀ pad st rows,
       q (subDays 45 (addDays (max 0 pad).toNat today))
         (addDays (max 0 pad).toNat today) = .error st →
       q (subDays 75 (addDays (max 0 pad).toNat today))
         (addDays (max 0 pad).toNat today) = .ok rows →
       detect_latest_day_v pad today q =
         .ok (if rows = [] then none
              else parseISO (maxStr (rows.map Prod.fst)))) := by
  refine ⟨?_, ?_, ?_, ?_, ?_⟩
  · intro rows h hne
    simp only [detect_latest_day_m, h, if_neg hne]
  · intro rows2 h1 h2
    simp only [detect_latest_day_m, h1, h2, if_pos rfl]
    by_cases hr : rows2 = [] <;> simp [hr]
  · intro hv
    obtain ⟨v1, o1⟩ := subDays_spec 1 today hv
    obtain ⟨_, o14⟩ := subDays_spec 14 (subDays 1 today) v1
    obtain ⟨_, o30⟩ := subDays_spec 30 (subDays 1 today) v1
    rw [o14, o30]
    norm_num
  · intro pad h
    simp only [detect_latest_day_v, h]
    simp
  · intro pad st rows h1 h2
    simp only [detect_latest_day_v, h1, h2]
    by_cases hr : rows = [] <;> simp [hr]

theorem c5_detect_latest_day_witness :
    detect_latest_day_m ⟨2025, 10, 20⟩ qRowsW =
      .ok (parseISO (maxStr (([("2025-10-05", (7 : ℚ))] : List Row).map Prod.fst))) ∧
    parseISO "2025-10-05" = some ⟨2025, 10, 5⟩ :=
  ⟨(c5_detect_latest_day ⟨2025, 10, 20⟩ qRowsW).1 [("2025-10-05", 7)] rfl
     (by decide), by decide⟩

/-! ## Claim C1 -/

/-- C1: whatever a channel's own detected latest day is, the value the
second pass records as the reconciled month-to-date sum is exactly the raw
`sum_metric` range-sum over `[first_of_month(g), g]` for the access
credential used (cached or re-acquired), and the recorded value does not
depend on the channel's own `views_latest`. -/
theorem c1_reconciled_mtd (exch : Token → Option Token)
    (q : Token → Date → Date → QueryResult) (g : Date) (rf : Option Token)
    (d : Chan) :
    (∀ tok v, d.access_token = some tok →
       sum_metric q tok (withDay g 1) g = .ok v →
       (reconcile_channel exch q g rf d).mtd_views_global = some v) ∧
    (∀ v, (reconcile_channel exch q g rf d).mtd_views_global = some v →
       ∃ tok, (reconcile_channel exch q g rf d).access_token = some tok ∧
         sum_metric q tok (withDay g 1) g = .ok v) ∧
    (∀ L, (reconcile_channel exch q g rf { d with views_latest := L }).mtd_views_global =
       (reconcile_channel exch q g rf d).mtd_views_global) := by
  refine ⟨?_, ?_, ?_⟩
  · intro tok v h1 h2
    simp [reconcile_channel, h1, h2]
  · intro v h
    rcases hat : d.access_token with _ | tok
    · rcases hrf : rf with _ | r
      · simp [reconcile_channel, hat, hrf] at h
      · rcases he : exch r with _ | tok2
        · simp [reconcile_channel, hat, hrf, he] at h
        · simp only [reconcile_channel, hat, hrf, he] at h ⊢
          rcases hs : sum_metric q tok2 (withDay g 1) g with st | w
          · simp [hs] at h
            split at h <;> simp_all
          · simp [hs] at h ⊢
            subst h
            rfl
    · simp only [reconcile_channel, hat] at h ⊢
      rcases hs : sum_metric q tok (withDay g 1) g with st | w
      · simp [hs] at h
        split at h <;> simp_all
      · simp [hs] at h ⊢
        subst h
        rfl
  · intro L
    rcases hat : d.access_token with _ | tok
    · rcases hrf : rf with _ | r
      · simp [reconcile_channel, hat, hrf]
      · rcases he : exch r with _ | tok2
        · simp [reconcile_channel, hat, hrf, he]
        · simp only [reconcile_channel, hat, hrf, he]
          rcases hs : sum_metric q tok2 (withDay g 1) g with st | w <;>
            simp [hs] <;> split <;> simp
    · simp only [reconcile_channel, hat]
      rcases hs : sum_metric q tok (withDay g 1) g with st | w <;>
        simp [hs] <;> split <;> simp

theorem c1_reconciled_mtd_witness :
    (reconcile_channel exchW qOkW ⟨2025, 10, 15⟩ (some "rf") chanW).mtd_views_global =
      some 7 :=
  (c1_reconciled_mtd exchW qOkW ⟨2025, 10, 15⟩ (some "rf") chanW).1 "tokA" 7 rfl
    (by simp [sum_metric, qOkW, Except.map])

/-! ## Date order helper lemmas -/

theorem dateLt_iff (a b : Date) :
    dateLt a b = true ↔
      a.y < b.y ∨ (a.y = b.y ∧ (a.m < b.m ∨ (a.m = b.m ∧ a.d < b.d))) := by
  simp [dateLt, Bool.or_eq_true, Bool.and_eq_true, decide_eq_true_eq, beq_iff_eq]

theorem dateLt_irrefl (a : Date) : dateLt a a = false := by
  rw [Bool.eq_false_iff]
  intro h
  rw [dateLt_iff] at h
  omega

theorem dateLt_trans (a b c : Date) (h1 : dateLt a b = true)
    (h2 : dateLt b c = true) : dateLt a c = true := by
  rw [dateLt_iff] at h1 h2 ⊢
  omega

theorem foldl_dateMax_mem (h : Date) (t : List Date) :
    t.foldl dateMax h ∈ h :: t := by
  induction t generalizing h with
  | nil => simp
  | cons x xs ih =>
    rw [List.foldl_cons]
    rcases Bool.eq_false_or_eq_true (dateLt h x) with hb | hb
    · have hmx : dateMax h x = x := by unfold dateMax; rw [hb]; simp
      rw [hmx]
      rcases List.mem_cons.mp (ih x) with he | he
      · rw [he]; simp
      · simp [he]
    · have hmx : dateMax h x = h := by unfold dateMax; rw [hb]; simp
      rw [hmx]
      rcases List.mem_cons.mp (ih h) with he | he
      · rw [he]; simp
      · simp [he]

theorem dateLt_asymm (a b : Date) (h : dateLt a b = true) : dateLt b a = false := by
  rw [dateLt_iff] at h
  rw [Bool.eq_false_iff, ne_eq, dateLt_iff]
  omega

theorem dateLt_false_trans (a b c : Date) (h1 : dateLt a b = false)
    (h2 : dateLt b c = false) : dateLt a c = false := by
  rw [Bool.eq_false_iff, ne_eq, dateLt_iff] at h1 h2 ⊢
  omega

theorem dateLt_dateMax_left (a b : Date) : dateLt (dateMax a b) a = false := by
  unfold dateMax
  split
  · rename_i hlt
    exact dateLt_asymm a b hlt
  · exact dateLt_irrefl a

theorem dateLt_dateMax_right (a b : Date) : dateLt (dateMax a b) b = false := by
  unfold dateMax
  split
  · exact dateLt_irrefl b
  · rename_i hlt
    rw [Bool.not_eq_true] at hlt
    exact hlt

theorem foldl_dateMax_ub (h : Date) (t : List Date) :
    dateLt (t.foldl dateMax h) h = false ∧
      ∀ x ∈ t, dateLt (t.foldl dateMax h) x = false := by
  induction t generalizing h with
  | nil => exact ⟨dateLt_irrefl h, by simp⟩
  | cons z zs ih =>
    obtain ⟨ub1, ub2⟩ := ih (dateMax h z)
    rw [List.foldl_cons]
    refine ⟨dateLt_false_trans _ _ _ ub1 (dateLt_dateMax_left h z), ?_⟩
    intro x hx
    rcases List.mem_cons.mp hx with rfl | hx
    · exact dateLt_false_trans _ _ _ ub1 (dateLt_dateMax_right h x)
    · exact ub2 x hx

theorem views_fold_none_proj (pc : String → Chan) (labels : List String) (acc : VAcc) :
    (labels.foldl (views_step pc none) acc).proj_lines =
      acc.proj_lines ++ labels.map (fun l => "• " ++ l ++ ": " ++ emDash) := by
  induction labels generalizing acc with
  | nil => simp
  | cons l ls ih =>
    rw [List.foldl_cons, ih]
    have hstep : (views_step pc none acc l).proj_lines =
        acc.proj_lines ++ ["• " ++ l ++ ": " ++ emDash] := by
      rcases hx : (pc l).views_latest with _ | dd <;>
        rcases hy : (pc l).y_views with _ | yv <;>
        simp [views_step, hx, hy]
    rw [hstep]
    simp

/-! ## Claim C4 -/

/-- C4: the global latest day is the maximum of the per-channel latest
finalized days over the channels that produced one (it is one of them and
no other exceeds it); when every channel has none it is `none`, the second
pass is skipped entirely (so every reconciled MTD value stays `none`), and
every projection line renders as the placeholder dash with all totals
`none`. -/
theorem c4_global_latest :
    (∀ ds : List (Option Date), global_latest_of ds = none ↔ ∀ x ∈ ds, x = none) ∧
    (∀ (ds : List (Option Date)) (g : Date), global_latest_of ds = some g →
       some g ∈ ds ∧ ∀ x ∈ ds, ∀ dx, x = some dx → dateLt g dx = false) ∧
    (∀ exch q rftok pc, reconcile_pass exch q rftok none pc = pc) ∧
    (∀ labels pc,
       (build_views_sections labels pc none).proj_lines =
         labels.map (fun l => "• " ++ l ++ ": " ++ emDash) ∧
       (build_views_sections labels pc none).tot_y = none ∧
       (build_views_sections labels pc none).tot_last = none ∧
       (build_views_sections labels pc none).tot_proj = none) := by
  refine ⟨?_, ?_, fun _ _ _ _ => rfl, ?_⟩
  · intro ds
    constructor
    · intro hg x hx
      unfold global_latest_of listMaxDate at hg
      rcases hf : ds.filterMap id with _ | ⟨h, t⟩
      · rcases hxv : x with _ | v
        · rfl
        · exfalso
          have hv : v ∈ ds.filterMap id :=
            List.mem_filterMap.mpr ⟨x, hx, by rw [hxv]; rfl⟩
          rw [hf] at hv
          simp at hv
      · rw [hf] at hg
        simp at hg
    · intro hall
      unfold global_latest_of listMaxDate
      have hnil : ds.filterMap id = [] :=
        List.filterMap_eq_nil_iff.mpr (fun a ha => by rw [hall a ha]; rfl)
      rw [hnil]
  · intro ds g hg
    unfold global_latest_of listMaxDate at hg
    rcases hf : ds.filterMap id with _ | ⟨h, t⟩
    · rw [hf] at hg; simp at hg
    · rw [hf] at hg
      simp only [Option.some.injEq] at hg
      constructor
      · have hm := foldl_dateMax_mem h t
        rw [hg] at hm
        rw [← hf] at hm
        obtain ⟨a, ha, hag⟩ := List.mem_filterMap.mp hm
        rw [show id a = a from rfl] at hag
        rw [← hag]
        exact ha
      · intro x hx dx hdx
        have hdm : dx ∈ ds.filterMap id :=
          List.mem_filterMap.mpr ⟨x, hx, by rw [hdx]; rfl⟩
        rw [hf] at hdm
        obtain ⟨ub1, ub2⟩ := foldl_dateMax_ub h t
        rcases List.mem_cons.mp hdm with rfl | hdm
        · rw [hg] at ub1; exact ub1
        · have := ub2 dx hdm
          rw [hg] at this; exact this
  · intro labels pc
    refine ⟨?_, rfl, rfl, rfl⟩
    show (labels.foldl (views_step pc none) ⟨[], [], 0, 0, 0⟩).proj_lines = _
    rw [views_fold_none_proj]
    simp

theorem c4_global_latest_witness :
    global_latest_of [none, none] = none ∧
    global_latest_of [some ⟨2025, 10, 14⟩, none, some ⟨2025, 10, 15⟩] =
      some ⟨2025, 10, 15⟩ ∧
    reconcile_pass exchW qOkW (fun _ => none) none (fun _ => chanW) =
      (fun _ => chanW) ∧
    (build_views_sections ["A"] (fun _ => chanW) none).proj_lines =
      ["• " ++ "A" ++ ": " ++ emDash] :=
  ⟨(c4_global_latest.1 [none, none]).mpr (by simp),
   by decide,
   c4_global_latest.2.2.1 exchW qOkW (fun _ => none) (fun _ => chanW),
   by
     have := (c4_global_latest.2.2.2 ["A"] (fun _ => chanW)).1
     simpa using this⟩

/-! ## Rendering characterization lemmas -/

theorem views_fold_some (pc : String → Chan) (g : Date) (labels : List String)
    (acc : VAcc) :
    (labels.foldl (views_step pc (some g)) acc).proj_lines =
      acc.proj_lines ++ labels.map (views_proj_line pc g) ∧
    (labels.foldl (views_step pc (some g)) acc).tot_mtd_global =
      acc.tot_mtd_global +
        (labels.map (fun l => ((pc l).mtd_views_global).getD 0)).sum := by
  induction labels generalizing acc with
  | nil => simp
  | cons l ls ih =>
    rw [List.foldl_cons]
    obtain ⟨p1, p2⟩ := ih (views_step pc (some g) acc l)
    have hstep :
        (views_step pc (some g) acc l).proj_lines =
          acc.proj_lines ++ [views_proj_line pc g l] ∧
        (views_step pc (some g) acc l).tot_mtd_global =
          acc.tot_mtd_global + ((pc l).mtd_views_global).getD 0 := by
      rcases hx : (pc l).views_latest with _ | dd <;>
        rcases hy : (pc l).y_views with _ | yv <;>
        rcases hm : (pc l).mtd_views_global with _ | mv <;>
        simp [views_step, views_proj_line, hx, hy, hm]
    rw [p1, p2, hstep.1, hstep.2]
    constructor
    · simp
    · simp
      ring

/-! ## Claim C2 -/

/-- C2 fails on `main.py`: `build_section_lists` renders channel B's
projection line from B's own detected latest day 2025-10-14 (total $1,107),
which differs from the figure anchored at the global latest day 2025-10-15
(total $1,033); `main.py` has no reconciled values at all. -/
theorem c2_counterexample :
    (build_section_lists ["A", "B"] perChanAB fmt_money).proj_lines =
      ["• " ++ "A" ++ ": " ++ "$2,067", "• " ++ "B" ++ ": " ++ "$1,107"] ∧
    fmt_money (month_projection_for (some ⟨2025, 10, 14⟩) (some 500)) = "$1,107" ∧
    fmt_money (month_projection_for (some ⟨2025, 10, 15⟩) (some 500)) = "$1,033" ∧
    ("$1,107" : String) ≠ "$1,033" := by
  have pB : month_projection_for (some ⟨2025, 10, 14⟩) (some 500) = 7750/7 := by
    rw [month_projection_some _ _ (by decide)]
    rw [show monthLenCode 2025 10 = 31 from by decide]
    rw [max_eq_left (by norm_num)]
    norm_num
  have pBg : month_projection_for (some ⟨2025, 10, 15⟩) (some 500) = 3100/3 := by
    rw [month_projection_some _ _ (by decide)]
    rw [show monthLenCode 2025 10 = 31 from by decide]
    rw [max_eq_left (by norm_num)]
    norm_num
  have pA : month_projection_for (some ⟨2025, 10, 15⟩) (some 1000) = 6200/3 := by
    rw [month_projection_some _ _ (by decide)]
    rw [show monthLenCode 2025 10 = 31 from by decide]
    rw [max_eq_left (by norm_num)]
    norm_num
  have fB : fmt_money (7750/7 : ℚ) = "$1,107" := by
    unfold fmt_money floatComma0
    rw [if_neg (by norm_num), show rhe (7750/7 : ℚ) = 1107 from by norm_num [rhe]]
    decide
  have fBg : fmt_money (3100/3 : ℚ) = "$1,033" := by
    unfold fmt_money floatComma0
    rw [if_neg (by norm_num), show rhe (3100/3 : ℚ) = 1033 from by norm_num [rhe]]
    decide
  have fA : fmt_money (6200/3 : ℚ) = "$2,067" := by
    unfold fmt_money floatComma0
    rw [if_neg (by norm_num), show rhe (6200/3 : ℚ) = 2067 from by norm_num [rhe]]
    decide
  refine ⟨?_, by rw [pB, fB], by rw [pBg, fBg], by decide⟩
  show (List.foldl (section_step perChanAB fmt_money) ⟨[], [], 0, 0, 0, []⟩
      ["A", "B"]).proj_lines = _
  rw [show List.foldl (section_step perChanAB fmt_money) ⟨[], [], 0, 0, 0, []⟩
      ["A", "B"] = section_step perChanAB fmt_money
        (section_step perChanAB fmt_money ⟨[], [], 0, 0, 0, []⟩ "A") "B" from rfl]
  simp only [section_step]
  rw [show perChanAB "A" =
      ({ latest := some ⟨2025, 10, 15⟩, y := some 40, mtd := some 1000 } : MChan)
      from rfl]
  rw [show perChanAB "B" =
      ({ latest := some ⟨2025, 10, 14⟩, y := some 20, mtd := some 500 } : MChan)
      from rfl]
  simp only []
  simp [pA, pB, fA, fB, pct_change]

/-- C2 amended: in `views_kpi_poster.py`'s `build_views_sections` the
rendered projection lines and the total projection are computed from the
reconciled (global-anchored) per-channel MTD values only — they are
unchanged under any change of the channels' own detected latest days or
channel-local MTD values; `main.py`'s `build_section_lists` instead anchors
each channel's line at that channel's own detected latest day. -/
theorem c2_amended :
    (∀ labels pc g,
       (build_views_sections labels pc (some g)).proj_lines =
         labels.map (views_proj_line pc g) ∧
       (build_views_sections labels pc (some g)).tot_proj =
         some (month_projection_for (some g)
           (some ((labels.map (fun l => ((pc l).mtd_views_global).getD 0)).sum)))) ∧
    (∀ labels pc pc' g,
       (∀ l, (pc' l).mtd_views_global = (pc l).mtd_views_global ∧
             (pc' l).last_month_views = (pc l).last_month_views) →
       (build_views_sections labels pc' (some g)).proj_lines =
         (build_views_sections labels pc (some g)).proj_lines ∧
       (build_views_sections labels pc' (some g)).tot_proj =
         (build_views_sections labels pc (some g)).tot_proj) := by
  have base : ∀ labels pc g,
      (build_views_sections labels pc (some g)).proj_lines =
        labels.map (views_proj_line pc g) ∧
      (build_views_sections labels pc (some g)).tot_proj =
        some (month_projection_for (some g)
          (some ((labels.map (fun l => ((pc l).mtd_views_global).getD 0)).sum))) := by
    intro labels pc g
    obtain ⟨p1, p2⟩ := views_fold_some pc g labels ⟨[], [], 0, 0, 0⟩
    constructor
    · show (labels.foldl (views_step pc (some g)) ⟨[], [], 0, 0, 0⟩).proj_lines = _
      rw [p1]
      simp
    · show some (month_projection_for (some g)
        (some (labels.foldl (views_step pc (some g)) ⟨[], [], 0, 0, 0⟩).tot_mtd_global)) = _
      rw [p2]
      simp
  refine ⟨base, ?_⟩
  intro labels pc pc' g h
  obtain ⟨b1, b2⟩ := base labels pc g
  obtain ⟨b1', b2'⟩ := base labels pc' g
  have hline : ∀ l, views_proj_line pc' g l = views_proj_line pc g l := by
    intro l
    unfold views_proj_line
    rw [(h l).1, (h l).2]
  have hsum : ∀ l, ((pc' l).mtd_views_global).getD 0 = ((pc l).mtd_views_global).getD 0 := by
    intro l
    rw [(h l).1]
  constructor
  · rw [b1, b1']
    exact List.map_congr_left (fun l _ => hline l)
  · rw [b2, b2']
    have hmap : List.map (fun l => ((pc' l).mtd_views_global).getD 0) labels =
        List.map (fun l => ((pc l).mtd_views_global).getD 0) labels :=
      List.map_congr_left (fun l _ => hsum l)
    rw [hmap]

theorem c2_amended_witness :
    (build_views_sections ["B"]
        (fun _ => { mtd_views_global := some 500, views_latest := some ⟨2025, 9, 1⟩,
                    mtd_views := some 111 })
        (some ⟨2025, 10, 15⟩)).proj_lines =
      (build_views_sections ["B"]
        (fun _ => { mtd_views_global := some 500, views_latest := some ⟨2025, 10, 14⟩,
                    mtd_views := some 500 })
        (some ⟨2025, 10, 15⟩)).proj_lines :=
  (c2_amended.2 ["B"]
    (fun _ => { mtd_views_global := some 500, views_latest := some ⟨2025, 10, 14⟩,
                mtd_views := some 500 })
    (fun _ => { mtd_views_global := some 500, views_latest := some ⟨2025, 9, 1⟩,
                mtd_views := some 111 })
    ⟨2025, 10, 15⟩ (fun _ => ⟨rfl, rfl⟩)).1

/-! ## Claim C8 -/

theorem revenue_fold_lines (pc : String → MChan) (labels : List String) (acc : RAcc) :
    (labels.foldl (revenue_step pc) acc).y_lines =
      acc.y_lines ++ labels.map (rev_y_line pc) ∧
    (labels.foldl (revenue_step pc) acc).proj_lines =
      acc.proj_lines ++ labels.map (rev_proj_line pc) := by
  induction labels generalizing acc with
  | nil => simp
  | cons l ls ih =>
    rw [List.foldl_cons]
    obtain ⟨p1, p2⟩ := ih (revenue_step pc acc l)
    have hstep :
        (revenue_step pc acc l).y_lines = acc.y_lines ++ [rev_y_line pc l] ∧
        (revenue_step pc acc l).proj_lines = acc.proj_lines ++ [rev_proj_line pc l] := by
      rcases hx : (pc l).latest with _ | dd <;>
        rcases hy : (pc l).y with _ | yv <;>
        rcases hm : (pc l).mtd with _ | mv <;>
        simp [revenue_step, rev_y_line, rev_proj_line, hx, hy, hm]
    rw [p1, p2, hstep.1, hstep.2]
    constructor <;> simp

theorem revenue_fold_nodata (pc : String → MChan) (labels : List String) (acc : RAcc)
    (h : ∀ l ∈ labels, (pc l).latest = none) :
    (labels.foldl (revenue_step pc) acc).tot_y = acc.tot_y ∧
    (labels.foldl (revenue_step pc) acc).tot_mtd = acc.tot_mtd ∧
    (labels.foldl (revenue_step pc) acc).tot_last = acc.tot_last ∧
    (labels.foldl (revenue_step pc) acc).latest_candidates = acc.latest_candidates ∧
    (labels.foldl (revenue_step pc) acc).y_date_candidates = acc.y_date_candidates := by
  induction labels generalizing acc with
  | nil => simp
  | cons l ls ih =>
    rw [List.foldl_cons]
    have hl : (pc l).latest = none := h l (by simp)
    have hstep :
        (revenue_step pc acc l).tot_y = acc.tot_y ∧
        (revenue_step pc acc l).tot_mtd = acc.tot_mtd ∧
        (revenue_step pc acc l).tot_last = acc.tot_last ∧
        (revenue_step pc acc l).latest_candidates = acc.latest_candidates ∧
        (revenue_step pc acc l).y_date_candidates = acc.y_date_candidates := by
      simp [revenue_step, hl]
    obtain ⟨a1, a2, a3, a4, a5⟩ := ih (revenue_step pc acc l) (fun x hx => h x (by simp [hx]))
    rw [a1, a2, a3, a4, a5]
    exact hstep

/-- C8 fails on `main.py`: with no channel contributing any data, the
totals of `build_section_lists` stay `0.0` (not `None`) and the Slack
yesterday header renders `$0` instead of the placeholder dash. -/
theorem c8_counterexample :
    (build_section_lists ["A"] perChanEmpty fmt_money).total_y = 0 ∧
    (slack_rev_headers ["A"] perChanEmpty).1 =
      ":spiral_calendar_pad: *Yesterday:* " ++ "$0" ∧
    (":spiral_calendar_pad: *Yesterday:* " ++ "$0" : String) ≠
      ":spiral_calendar_pad: *Yesterday:* " ++ emDash := by
  refine ⟨rfl, ?_, by decide⟩
  show ":spiral_calendar_pad: *Yesterday:* " ++
      fmt_or_dash_money (some (build_section_lists ["A"] perChanEmpty fmt_money).total_y) = _
  rw [show (build_section_lists ["A"] perChanEmpty fmt_money).total_y = 0 from rfl]
  rw [show fmt_or_dash_money (some 0) = fmt_money 0 from rfl]
  unfold fmt_money floatComma0
  rw [if_neg (by norm_num), show rhe (0 : ℚ) = 0 from by norm_num [rhe]]
  decide

/-- C8 amended: in `adsense_kpi_poster.py`'s `build_revenue_sections` (and
the views variant), when no channel contributed data all total figures are
`None` and both headers render the placeholder dash, never `0`; absent
per-channel values always render as the single dash line.  In `main.py`'s
`build_section_lists` the totals instead remain `0.0` and render as `$0`. -/
theorem c8_amended :
    (∀ labels pc, (∀ l ∈ labels, (pc l).latest = none) →
       (build_revenue_sections labels pc).tot_y = none ∧
       (build_revenue_sections labels pc).tot_mtd = none ∧
       (build_revenue_sections labels pc).tot_last = none ∧
       (build_revenue_sections labels pc).tot_proj = none ∧
       (build_revenue_sections labels pc).header_y =
         ":spiral_calendar_pad: *Yesterday:* " ++ emDash ∧
       (build_revenue_sections labels pc).header_proj =
         ":calendar: *This Month [P]:* " ++ emDash ∧
       (build_revenue_sections labels pc).y_lines =
         labels.map (fun l => "• " ++ l ++ ": " ++ emDash) ∧
       (build_revenue_sections labels pc).proj_lines =
         labels.map (fun l => "• " ++ l ++ ": " ++ emDash)) ∧
    (∀ labels pc l, l ∈ labels → (pc l).latest = none →
       ("• " ++ l ++ ": " ++ emDash) ∈ (build_revenue_sections labels pc).y_lines ∧
       ("• " ++ l ++ ": " ++ emDash) ∈ (build_revenue_sections labels pc).proj_lines) := by
  have lines : ∀ labels pc,
      (build_revenue_sections labels pc).y_lines =
        labels.map (rev_y_line pc) ∧
      (build_revenue_sections labels pc).proj_lines =
        labels.map (rev_proj_line pc) := by
    intro labels pc
    obtain ⟨p1, p2⟩ := revenue_fold_lines pc labels ⟨[], [], 0, 0, 0, [], []⟩
    constructor
    · show (labels.foldl (revenue_step pc) ⟨[], [], 0, 0, 0, [], []⟩).y_lines = _
      rw [p1]; simp
    · show (labels.foldl (revenue_step pc) ⟨[], [], 0, 0, 0, [], []⟩).proj_lines = _
      rw [p2]; simp
  constructor
  · intro labels pc h
    obtain ⟨hy, hmtd, hlast, hcand, hydate⟩ :=
      revenue_fold_nodata pc labels ⟨[], [], 0, 0, 0, [], []⟩ h
    obtain ⟨hl1, hl2⟩ := lines labels pc
    have hmap : ∀ l ∈ labels, rev_y_line pc l = "• " ++ l ++ ": " ++ emDash := by
      intro l hl
      unfold rev_y_line
      rw [h l hl]
    have hmap2 : ∀ l ∈ labels, rev_proj_line pc l = "• " ++ l ++ ": " ++ emDash := by
      intro l hl
      unfold rev_proj_line
      rw [h l hl]
    refine ⟨?_, ?_, ?_, ?_, ?_, ?_, ?_, ?_⟩
    · show (if (List.foldl (revenue_step pc) ⟨[], [], 0, 0, 0, [], []⟩ labels).latest_candidates ≠ []
          then some (List.foldl (revenue_step pc) ⟨[], [], 0, 0, 0, [], []⟩ labels).tot_y
          else none) = none
      rw [hcand]
      simp
    · show (if (List.foldl (revenue_step pc) ⟨[], [], 0, 0, 0, [], []⟩ labels).latest_candidates ≠ []
          then some (List.foldl (revenue_step pc) ⟨[], [], 0, 0, 0, [], []⟩ labels).tot_mtd
          else none) = none
      rw [hcand]
      simp
    · show (if (List.foldl (revenue_step pc) ⟨[], [], 0, 0, 0, [], []⟩ labels).latest_candidates ≠ []
          then some (List.foldl (revenue_step pc) ⟨[], [], 0, 0, 0, [], []⟩ labels).tot_last
          else none) = none
      rw [hcand]
      simp
    · show (if (List.foldl (revenue_step pc) ⟨[], [], 0, 0, 0, [], []⟩ labels).latest_candidates ≠ []
          then some (month_projection_for
            (listMaxDate (List.foldl (revenue_step pc) ⟨[], [], 0, 0, 0, [], []⟩ labels).latest_candidates)
            (some (List.foldl (revenue_step pc) ⟨[], [], 0, 0, 0, [], []⟩ labels).tot_mtd))
          else none) = none
      rw [hcand]
      simp
    · show ":spiral_calendar_pad: *Yesterday:* " ++ fmt_or_dash_money
          (if (List.foldl (revenue_step pc) ⟨[], [], 0, 0, 0, [], []⟩ labels).latest_candidates ≠ []
           then some (List.foldl (revenue_step pc) ⟨[], [], 0, 0, 0, [], []⟩ labels).tot_y
           else none) = _
      rw [hcand]
      simp [fmt_or_dash_money]
    · rw [show (build_revenue_sections labels pc).header_proj =
          ":calendar: *This Month [P]:* " ++ fmt_or_dash_money
            (build_revenue_sections labels pc).tot_proj ++
            (match (build_revenue_sections labels pc).tot_proj,
                   (build_revenue_sections labels pc).tot_last with
             | some tp, some tl => if tl = 0 then "" else pct_change tp (some tl)
             | _, _ => "") from rfl]
      have h4 : (build_revenue_sections labels pc).tot_proj = none := by
        show (if (List.foldl (revenue_step pc) ⟨[], [], 0, 0, 0, [], []⟩ labels).latest_candidates ≠ []
            then some (month_projection_for
              (listMaxDate (List.foldl (revenue_step pc) ⟨[], [], 0, 0, 0, [], []⟩ labels).latest_candidates)
              (some (List.foldl (revenue_step pc) ⟨[], [], 0, 0, 0, [], []⟩ labels).tot_mtd))
            else none) = none
        rw [hcand]
        simp
      rw [h4]
      simp [fmt_or_dash_money]
    · rw [hl1]
      exact List.map_congr_left hmap
    · rw [hl2]
      exact List.map_congr_left hmap2
  · intro labels pc l hl hnone
    obtain ⟨hl1, hl2⟩ := lines labels pc
    constructor
    · rw [hl1]
      exact List.mem_map.mpr ⟨l, hl, by unfold rev_y_line; rw [hnone]⟩
    · rw [hl2]
      exact List.mem_map.mpr ⟨l, hl, by unfold rev_proj_line; rw [hnone]⟩

theorem c8_amended_witness :
    (build_revenue_sections ["A"] perChanEmpty).tot_y = none ∧
    (build_revenue_sections ["A"] perChanEmpty).header_y =
      ":spiral_calendar_pad: *Yesterday:* " ++ emDash :=
  ⟨(c8_amended.1 ["A"] perChanEmpty (fun _ _ => rfl)).1,
   (c8_amended.1 ["A"] perChanEmpty (fun _ _ => rfl)).2.2.2.2.1⟩

/-! ## Claim C10 -/

set_option maxRecDepth 20000 in
/-- C10: the comment-stripping passes of `load_tokens_file` operate on the
whole file text, inside JSON string literals included: the exhibited input
is valid standard JSON for a non-empty object whose `refresh_token` value
contains `/*` and `*/`, yet the loader returns a mapping whose value lost
the `/*y*/` infix — a mapping different from the standard JSON parse of
the same text. -/
theorem c10_lenient_loader :
    jsonParse tokensRawC10 =
      some (JVal.jobj [("alpha", JVal.jobj [("refresh_token", JVal.jstr "x/*y*/z")])]) ∧
    load_tokens_file tokensRawC10 =
      some [("alpha", JVal.jobj [("refresh_token", JVal.jstr "xz")])] ∧
    ("x/*y*/z" : String) ≠ "xz" :=
  ⟨rfl, rfl, by decide⟩

end YTKPI
